import Mathlib

/-!
Verification of the langgraph-gen graph-specification compiler.

The repository's visible layer is `langgraph_gen/cli.py`; its `_generate`
function derives output paths, reads the specification text, calls the
compiler core `generate_from_spec`, and writes the two artifacts.  We embed
`_rewrite_path_as_import` and `_generate` faithfully, modelling `pathlib`
path operations (`parts`, `stem`, `with_suffix`, `with_name`, `parent`,
`relative_to`) after CPython's implementation for relative POSIX paths.
The compiler core (parser, adapter, renderer) is not part of the visible
source; where a property depends on it, the definitions are modelled from
the design document and marked as such.
-/

/-- Strings are modelled as lists of characters so that substring and
ordering arguments stay elementary. -/
abbrev Str := List Char

namespace Str

/-- Index of the last occurrence of `c` in `s` (CPython `str.rfind`),
`none` when absent. -/
def rfind (c : Char) : Str → Option Nat
  | [] => none
  | x :: xs =>
    match rfind c xs with
    | some i => some (i + 1)
    | none => if x = c then some 0 else none

/-- CPython `PurePath.suffix` restricted to a single path component:
the substring from the last dot, provided that dot is neither the first
character nor the last. -/
def suffix (name : Str) : Str :=
  match rfind '.' name with
  | some i => if 0 < i ∧ i < name.length - 1 then name.drop i else []
  | none => []

/-- CPython `PurePath.stem` restricted to a single path component. -/
def stem (name : Str) : Str :=
  match rfind '.' name with
  | some i => if 0 < i ∧ i < name.length - 1 then name.take i else name
  | none => name

/-- `needle` occurs contiguously inside `hay`. -/
def occursIn (needle hay : Str) : Prop :=
  ∃ s t : Str, hay = s ++ needle ++ t

end Str

/-- A relative POSIX path as `pathlib` presents it: the list of its
components (`PurePath.parts`).  CPython guarantees each component is
nonempty and free of the separator; theorems that need this state it as a
hypothesis. -/
structure PyPath where
  parts : List Str
  deriving DecidableEq, Repr

namespace PyPath

/-- `PurePath.name`: the final component (empty for the empty path). -/
def name (p : PyPath) : Str := p.parts.getLast?.getD []

/-- `PurePath.stem`. -/
def stem (p : PyPath) : Str := Str.stem p.name

/-- `PurePath.suffix`. -/
def suffix (p : PyPath) : Str := Str.suffix p.name

/-- `PurePath.with_suffix(suf)`: the last component keeps its stem and
receives `suf`; CPython raises on an empty name, which the embedding maps
to returning the path unchanged (no claim exercises that branch). -/
def with_suffix (p : PyPath) (suf : Str) : PyPath :=
  match p.parts.getLast? with
  | none => p
  | some nm => ⟨p.parts.dropLast ++ [Str.stem nm ++ suf]⟩

/-- `PurePath.with_name(nm)`: replace the final component. -/
def with_name (p : PyPath) (nm : Str) : PyPath :=
  ⟨p.parts.dropLast ++ [nm]⟩

/-- `PurePath.parent`. -/
def parent (p : PyPath) : PyPath := ⟨p.parts.dropLast⟩

/-- Component-list prefix test, used by `relative_to`. -/
def isPre : List Str → List Str → Bool
  | [], _ => true
  | _ :: _, [] => false
  | a :: as, b :: bs => a = b && isPre as bs

/-- `PurePath.relative_to(q)`: defined exactly when `q`'s components lead
`p`'s, in which case the remainder is returned; CPython raises
`ValueError` otherwise, embedded as `none`. -/
def relative_to (p q : PyPath) : Option PyPath :=
  if isPre q.parts p.parts then some ⟨p.parts.drop q.parts.length⟩ else none

end PyPath

/-- Decidable equality for `Except`, so outcomes evaluate on concrete
inputs. -/
instance {ε α : Type} [DecidableEq ε] [DecidableEq α] : DecidableEq (Except ε α) := fun
  | .error e, .error e' =>
    if h : e = e' then .isTrue (by rw [h]) else .isFalse (by intro hh; cases hh; exact h rfl)
  | .error _, .ok _ => .isFalse (by intro h; cases h)
  | .ok _, .error _ => .isFalse (by intro h; cases h)
  | .ok a, .ok a' =>
    if h : a = a' then .isTrue (by rw [h]) else .isFalse (by intro hh; cases hh; exact h rfl)

/-- `"."` -join of a list of components (CPython `".".join`). -/
def joinDot : List Str → Str
  | [] => []
  | [x] => x
  | x :: xs => x ++ '.' :: joinDot xs

/-- `_rewrite_path_as_import` from `cli.py`:
`".".join(path.with_suffix("").parts)`. -/
def rewrite_path_as_import (p : PyPath) : Str :=
  joinDot (p.with_suffix []).parts

/-! ## The `_generate` function of `cli.py`

`_generate` is embedded as a pure outcome record: the value it returns (or
the error it raises), the list of files it read, the list of
`(path, text)` writes it performed in order, and the calls it made to the
compiler core `generate_from_spec`.  The core itself is a parameter
(`gen`), since only its call site is visible in the source; the filesystem
is a parameter `fs` giving each path's text (`Path.read_text`). -/

/-- Errors `_generate` can raise.  The source raises `NotImplementedError`
for an unsupported language and `ValueError` when `relative_to` fails;
`generate_from_spec` may raise its own errors (`genError`).  The design
document also names a `ConfigurationError` kind; no code path in `cli.py`
raises it, and the constructor exists so that claims about it can be
stated. -/
inductive GenErr (ε : Type) where
  | notImplementedError
  | configurationError
  | valueError
  | genError (e : ε)
  deriving DecidableEq, Repr

/-- Everything observable about one run of `_generate`. -/
structure GenOutcome (ε : Type) where
  result : Except (GenErr ε) (PyPath × PyPath)
  reads : List PyPath
  writes : List (PyPath × Str)
  genCalls : List ((Str × Str × Str) × Except ε (Str × Str))
  deriving Repr

/-- The two recognized target languages of `_generate`. -/
def pythonLang : Str := "python".toList

/-- See `pythonLang`. -/
def typescriptLang : Str := "typescript".toList

/-- Statements 5–9 of `_generate` from `cli.py` (see `generate` for 1–4):
5. `stub_module = _rewrite_path_as_import(
      output_path.relative_to(implementation.parent))`;
6. `spec_as_yaml = input_file.read_text()`;
7. `stub, impl = generate_from_spec(spec_as_yaml, "yaml", ...,
      language=language, stub_module=stub_module)`;
8. `output_path.write_text(stub)`; `implementation.write_text(impl)`;
9. `return output_path, implementation`. -/
def generateCore (fs : PyPath → Str) (gen : Str → Str → Str → Except ε (Str × Str))
    (input_file : PyPath) (language : Str)
    (output_path implementation : PyPath) : GenOutcome ε :=
  match output_path.relative_to implementation.parent with
  | none =>
    { result := .error .valueError, reads := [], writes := [], genCalls := [] }
  | some rel =>
    match gen (fs input_file) language (rewrite_path_as_import rel) with
    | .error e =>
      { result := .error (.genError e), reads := [input_file], writes := [],
        genCalls := [((fs input_file, language, rewrite_path_as_import rel), .error e)] }
    | .ok (stub, impl) =>
      { result := .ok (output_path, implementation),
        reads := [input_file],
        writes := [(output_path, stub), (implementation, impl)],
        genCalls := [((fs input_file, language, rewrite_path_as_import rel), .ok (stub, impl))] }

/-- Statements 3–4 of `_generate` (see `generate`): the output path
defaults to the input with the per-language suffix, the implementation
path to the input's stem followed by `_impl` and the suffix. -/
def generateValid (fs : PyPath → Str) (gen : Str → Str → Str → Except ε (Str × Str))
    (input_file : PyPath) (language suffix : Str)
    (output_file implementation : Option PyPath) : GenOutcome ε :=
  generateCore fs gen input_file language
    (output_file.getD (input_file.with_suffix suffix))
    (implementation.getD (input_file.with_name (input_file.stem ++ "_impl".toList ++ suffix)))

/-- Statements 1–2 of `_generate` from `cli.py`:
1. `if language not in ["python", "typescript"]: raise NotImplementedError`;
2. `suffix = ".py" if language == "python" else ".ts"`;
see `generateValid` and `generateCore` for the rest. -/
def generate (fs : PyPath → Str) (gen : Str → Str → Str → Except ε (Str × Str))
    (input_file : PyPath) (language : Str)
    (output_file implementation : Option PyPath) : GenOutcome ε :=
  if language ∉ [pythonLang, typescriptLang] then
    { result := .error .notImplementedError, reads := [], writes := [], genCalls := [] }
  else
    generateValid fs gen input_file language
      (if language = pythonLang then ".py".toList else ".ts".toList)
      output_file implementation

/-! ## The compiler core, modelled from the design document

`generate_from_spec` and the parser/renderer behind it are not part of the
visible source (`cli.py` only calls them), so the definitions below are
modelled from the design document's component contracts (§3, §4.1–§4.4). -/

/-- Modelled from the spec: an Edge is direct (single destination) or
conditional (branch-label-to-destination mapping plus optional default);
the parser/renderer sources are not in the visible repository. -/
inductive EdgeKind where
  | direct (dst : Str)
  | conditional (branches : List (Str × Str)) (dflt : Option Str)
  deriving DecidableEq, Repr

/-- Modelled from the spec: an edge with its source node id. -/
structure Edge where
  src : Str
  kind : EdgeKind
  deriving DecidableEq, Repr

/-- All destination node ids an edge can transition to. -/
def Edge.dests (e : Edge) : List Str :=
  match e.kind with
  | .direct d => [d]
  | .conditional bs dflt => bs.map Prod.snd ++ dflt.toList

/-- All node ids an edge references (source and destinations). -/
def Edge.refs (e : Edge) : List Str := e.src :: e.dests

/-- A conditional edge with neither branches nor a default (the design
document treats this as a validation defect). -/
def Edge.isEmptyConditional (e : Edge) : Bool :=
  match e.kind with
  | .conditional [] none => true
  | _ => false

/-- Modelled from the spec: a declared node, with its entry marking. -/
structure RawNode where
  id : Str
  isEntry : Bool
  deriving DecidableEq, Repr

/-- Modelled from the spec: the raw document after pass 1 of the parser —
node table and raw edge list, before cross-referencing. -/
structure RawSpec where
  nodes : List RawNode
  edges : List Edge
  deriving DecidableEq, Repr

/-- The structural defects a `SpecificationError` enumerates. -/
inductive Defect where
  | duplicateNode (id : Str)
  | danglingRef (id : Str)
  | emptyBranches (src : Str)
  | entryCount (n : Nat)
  | unreachable (id : Str)
  deriving DecidableEq, Repr

/-- Declared node ids, in declaration order. -/
def RawSpec.ids (raw : RawSpec) : List Str := raw.nodes.map (·.id)

/-- Node ids declared more than once. -/
def RawSpec.dupIds (raw : RawSpec) : List Str :=
  (raw.ids.filter (fun x => 1 < raw.ids.count x)).dedup

/-- Node ids referenced by an edge but never declared. -/
def RawSpec.danglingIds (raw : RawSpec) : List Str :=
  ((raw.edges.flatMap Edge.refs).filter (fun x => x ∉ raw.ids)).dedup

/-- The nodes marked entry. -/
def RawSpec.entries (raw : RawSpec) : List RawNode :=
  raw.nodes.filter (·.isEntry)

/-- Successors of a node: destinations of every edge leaving it. -/
def succs (edges : List Edge) (n : Str) : List Str :=
  (edges.filter (fun e => e.src = n)).flatMap Edge.dests

/-- Breadth-first traversal worklist loop: pops the queue front, appends
newly visited nodes' successors to the back.  `fuel` bounds the number of
pops; `bfsFrom` supplies enough fuel for the queue to drain. -/
def bfsAux (edges : List Edge) : Nat → List Str → List Str → List Str
  | 0, visited, _ => visited
  | _ + 1, visited, [] => visited
  | fuel + 1, visited, n :: queue =>
    if n ∈ visited then bfsAux edges fuel visited queue
    else bfsAux edges fuel (visited ++ [n]) (queue ++ succs edges n)

/-- Breadth-first traversal from `entry`. -/
def bfsFrom (edges : List Edge) (entry : Str) (fuel : Nat) : List Str :=
  bfsAux edges fuel [] [entry]

/-- The visited set of the reachability traversal: breadth-first from the
unique entry node.  When the entry is not unique the reachability check
does not apply (the entry-count defect is reported instead), embedded by
treating every declared node as visited. -/
def RawSpec.visited (raw : RawSpec) : List Str :=
  match raw.entries with
  | [e] =>
    bfsFrom raw.edges e.id ((raw.edges.flatMap Edge.dests).length + raw.edges.length + 1)
  | _ => raw.ids

/-- Pass 2 of the parser: every invariant check in a fixed order, each
contributing all the defects it finds — duplicate node ids, dangling edge
references, empty branch mappings, wrong number of entry nodes,
unreachable nodes. -/
def RawSpec.collectDefects (raw : RawSpec) : List Defect :=
  raw.dupIds.map .duplicateNode
    ++ raw.danglingIds.map .danglingRef
    ++ (raw.edges.filter Edge.isEmptyConditional).map (fun e => .emptyBranches e.src)
    ++ (if raw.entries.length = 1 then [] else [.entryCount raw.entries.length])
    ++ (raw.ids.filter (fun n => n ∉ raw.visited)).map .unreachable

/-- Modelled from the spec: the validated Specification — the nodes in
insertion order, the edges, and the entry node id. -/
structure Specification where
  nodes : List RawNode
  edges : List Edge
  entry : Str
  deriving DecidableEq, Repr

/-- Modelled from the spec: the Specification Parser — produces a
Specification, or fails with the full list of structural defects found. -/
def parseSpec (raw : RawSpec) : Except (List Defect) Specification :=
  match raw.collectDefects with
  | [] => .ok ⟨raw.nodes, raw.edges, ((raw.entries.map (·.id)).headI)⟩
  | ds => .error ds

/-- Modelled from the spec: the Language Adapter — a per-language table of
lexical conventions (identifier casing, module-reference syntax, file
suffix, comment token); the adapter sources are not in the visible
repository. -/
structure LanguageAdapter where
  caseName : Str → Str
  moduleRef : Str → Str
  fileSuffix : Str
  commentToken : Str

/-- Snake-casing rule for node names. -/
def snakeCase (s : Str) : Str :=
  s.map (fun c => if c = ' ' ∨ c = '-' then '_' else c.toLower)

/-- Camel-casing worker: `up` records whether the next letter is
capitalized. -/
def camelCaseAux : Bool → Str → Str
  | _, [] => []
  | up, c :: cs =>
    if c = ' ' ∨ c = '-' ∨ c = '_' then camelCaseAux true cs
    else (if up then c.toUpper else c.toLower) :: camelCaseAux false cs

/-- Camel-casing rule for node names. -/
def camelCase (s : Str) : Str := camelCaseAux false s

/-- The python adapter entry. -/
def pythonAdapter : LanguageAdapter where
  caseName := snakeCase
  moduleRef := fun m => "from ".toList ++ m ++ " import nodes".toList
  fileSuffix := ".py".toList
  commentToken := "#".toList

/-- The typescript adapter entry. -/
def typescriptAdapter : LanguageAdapter where
  caseName := camelCase
  moduleRef := fun m => "import * as nodes from ".toList ++ m
  fileSuffix := ".ts".toList
  commentToken := "//".toList

/-- Errors of the modelled compiler facade: a `SpecificationError`
carrying the full defect list, or a `ConfigurationError` for an
unsupported target language. -/
inductive CompileErr where
  | specificationError (ds : List Defect)
  | configurationError (language : Str)
  deriving DecidableEq, Repr

/-- Modelled from the spec: the adapter lookup — exactly two supported
values, any other value is a `ConfigurationError`. -/
def lookupAdapter (language : Str) : Except CompileErr LanguageAdapter :=
  if language = pythonLang then .ok pythonAdapter
  else if language = typescriptLang then .ok typescriptAdapter
  else .error (.configurationError language)

/-- One rendered statement of an artifact. -/
inductive Stmt where
  | header (text : Str)
  | nodeDecl (id fn : Str)
  | entryStmt (id : Str)
  | directEdge (src dst : Str)
  | condEdge (src : Str) (table : List (Str × Str)) (dflt : Option Str)
  | exitStmt (id : Str)
  | implFn (id fn : Str)
  deriving DecidableEq, Repr

/-- The node id of a per-node stub statement, `none` on other statements. -/
def Stmt.nodeId? : Stmt → Option Str
  | .nodeDecl id _ => some id
  | _ => none

/-- The node id of a per-node implementation statement. -/
def Stmt.implId? : Stmt → Option Str
  | .implFn id _ => some id
  | _ => none

/-- The stub statement registering one edge: a fixed transition for a
direct edge, a branch-table transition for a conditional one. -/
def Stmt.ofEdge (e : Edge) : Stmt :=
  match e.kind with
  | .direct d => .directEdge e.src d
  | .conditional bs dflt => .condEdge e.src bs dflt

/-- Node ids with no outgoing edge (terminal nodes, marked as graph
exits). -/
def Specification.terminals (s : Specification) : List Str :=
  (s.nodes.map (·.id)).filter (fun n => (s.edges.filter (fun e => e.src = n)).isEmpty)

/-- Modelled from the spec: stub rendering — header importing the stub
module, one graph-builder statement per node in insertion order, entry
registration, one statement per edge, terminal nodes marked as exits. -/
def renderStubStmts (s : Specification) (a : LanguageAdapter) (stubModule : Str) : List Stmt :=
  [.header (a.moduleRef stubModule)]
    ++ s.nodes.map (fun n => .nodeDecl n.id (a.caseName n.id))
    ++ [.entryStmt s.entry]
    ++ s.edges.map Stmt.ofEdge
    ++ s.terminals.map .exitStmt

/-- Modelled from the spec: implementation rendering — one placeholder
function per node, in insertion order. -/
def renderImplStmts (s : Specification) (a : LanguageAdapter) : List Stmt :=
  s.nodes.map (fun n => .implFn n.id (a.caseName n.id))

/-- One line of source text per statement. -/
def Stmt.line : Stmt → Str
  | .header t => t
  | .nodeDecl id fn => "builder.add_node(".toList ++ id ++ ", ".toList ++ fn ++ ")".toList
  | .entryStmt id => "builder.set_entry(".toList ++ id ++ ")".toList
  | .directEdge src dst => "builder.add_edge(".toList ++ src ++ ", ".toList ++ dst ++ ")".toList
  | .condEdge src table dflt =>
    "builder.add_cond(".toList ++ src
      ++ (table.flatMap (fun b => ", ".toList ++ b.1 ++ ": ".toList ++ b.2))
      ++ (match dflt with | some d => ", default: ".toList ++ d | none => [])
      ++ ")".toList
  | .exitStmt id => "builder.set_exit(".toList ++ id ++ ")".toList
  | .implFn _ fn => "def ".toList ++ fn ++ ": raise NotImplementedError".toList

/-- Newline-join of rendered lines. -/
def joinLines (ls : List Str) : Str :=
  ls.flatMap (fun s => s ++ ['\n'])

/-- Stub artifact text. -/
def renderStub (s : Specification) (a : LanguageAdapter) (stubModule : Str) : Str :=
  joinLines ((renderStubStmts s a stubModule).map Stmt.line)

/-- Implementation artifact text. -/
def renderImpl (s : Specification) (a : LanguageAdapter) : Str :=
  joinLines ((renderImplStmts s a).map Stmt.line)

/-- Modelled from the spec: the Compiler Facade — Parser, then adapter
lookup, then the two renderings; fails with whatever error the parser or
adapter lookup raised. -/
def compile (raw : RawSpec) (language stubModule : Str) : Except CompileErr (Str × Str) := do
  let spec ← (parseSpec raw).mapError CompileErr.specificationError
  let a ← lookupAdapter language
  pure (renderStub spec a stubModule, renderImpl spec a)

/-! ## Concrete fixtures for witnesses and counterexamples -/

/-- A trivial filesystem for concrete evaluations. -/
def fs0 : PyPath → Str := fun _ => "nodes: []".toList

/-- A compiler core that always succeeds, for concrete evaluations. -/
def gen0 : Str → Str → Str → Except Unit (Str × Str) :=
  fun _ _ _ => .ok ("stub text".toList, "impl text".toList)

/-- A compiler core that always fails, for concrete evaluations. -/
def genFail : Str → Str → Str → Except Unit (Str × Str) :=
  fun _ _ _ => .error ()

/-- Concrete input path for evaluations. -/
def specYml : PyPath := ⟨["spec.yml".toList]⟩

/-- Fixture for defect enumeration: a duplicated entry node `a` declared
twice, an edge to the undeclared node `x`, and a conditional edge with no
branches and no default. -/
def raw0 : RawSpec :=
  { nodes := [⟨"a".toList, true⟩, ⟨"a".toList, true⟩],
    edges := [⟨"a".toList, .direct ("x".toList)⟩, ⟨"a".toList, .conditional [] none⟩] }

/-- Fixture from the design document's unreachable-node example: nodes
`a` (entry), `b`, `c`, one edge `a → b`, so `c` is unreachable. -/
def raw1 : RawSpec :=
  { nodes := [⟨"a".toList, true⟩, ⟨"b".toList, false⟩, ⟨"c".toList, false⟩],
    edges := [⟨"a".toList, .direct ("b".toList)⟩] }

/-- Fixture of a fully valid specification: nodes `a` (entry) and `b`,
one edge `a → b`. -/
def raw2 : RawSpec :=
  { nodes := [⟨"a".toList, true⟩, ⟨"b".toList, false⟩],
    edges := [⟨"a".toList, .direct ("b".toList)⟩] }

/-- The stub text of the valid fixture, for concrete evaluations. -/
def stubPy : Str :=
  renderStub ⟨raw2.nodes, raw2.edges, "a".toList⟩ pythonAdapter ("agent".toList)

/-- The implementation text of the valid fixture. -/
def implPy : Str :=
  renderImpl ⟨raw2.nodes, raw2.edges, "a".toList⟩ pythonAdapter

/-! ## Claims about `_generate` -/

/-- C1 (claim as stated, refuted): at the concrete unsupported language
"rust", `_generate` raises `NotImplementedError`, not the
`ConfigurationError` the claim names. -/
theorem C1_counterexample :
    (generate fs0 gen0 specYml ("rust".toList) none none).result ≠
        Except.error GenErr.configurationError ∧
      (generate fs0 gen0 specYml ("rust".toList) none none).result =
        Except.error GenErr.notImplementedError := by
  decide

/-- C1 (amended): for every target language outside the two recognized
values, `_generate` fails with `NotImplementedError` and writes no
output. -/
theorem C1_unsupported_language {ε : Type} (fs : PyPath → Str)
    (gen : Str → Str → Str → Except ε (Str × Str)) (input : PyPath) (language : Str)
    (output_file implementation : Option PyPath)
    (h : language ∉ [pythonLang, typescriptLang]) :
    (generate fs gen input language output_file implementation).result =
        Except.error GenErr.notImplementedError ∧
      (generate fs gen input language output_file implementation).writes = [] := by
  unfold generate
  rw [if_pos h]
  exact ⟨rfl, rfl⟩

/-- C1 witness: the amended claim at the concrete language "rust". -/
theorem C1_unsupported_language_witness :
    (generate fs0 gen0 specYml ("rust".toList) none none).result =
        Except.error GenErr.notImplementedError ∧
      (generate fs0 gen0 specYml ("rust".toList) none none).writes = [] :=
  C1_unsupported_language fs0 gen0 specYml ("rust".toList) none none (by decide)

/-- C3: `_generate` is all-or-nothing — when any step raises, no file is
written; when it returns, the two artifacts were both written. -/
theorem C3_no_partial_output {ε : Type} (fs : PyPath → Str)
    (gen : Str → Str → Str → Except ε (Str × Str)) (input : PyPath) (language : Str)
    (output_file implementation : Option PyPath) :
    ((∃ e, (generate fs gen input language output_file implementation).result =
          Except.error e) →
        (generate fs gen input language output_file implementation).writes = []) ∧
      ∀ o p,
        (generate fs gen input language output_file implementation).result =
            Except.ok (o, p) →
          ∃ s i,
            (generate fs gen input language output_file implementation).writes =
              [(o, s), (p, i)] := by
  unfold generate generateValid generateCore
  split
  · exact ⟨fun _ => rfl, fun o p h => by cases h⟩
  · split
    · exact ⟨fun _ => rfl, fun o p h => by cases h⟩
    · split
      · exact ⟨fun _ => rfl, fun o p h => by cases h⟩
      · refine ⟨fun he => ?_, fun o p h => ?_⟩
        · obtain ⟨e, he⟩ := he
          cases he
        · cases h
          exact ⟨_, _, rfl⟩

/-- C3 witness: at a failing compiler core nothing is written; at a
succeeding one both artifacts are written. -/
theorem C3_no_partial_output_witness :
    (generate fs0 genFail specYml pythonLang none none).writes = [] ∧
      ∃ s i,
        (generate fs0 gen0 specYml pythonLang none none).writes =
          [(⟨["spec.py".toList]⟩, s), (⟨["spec_impl.py".toList]⟩, i)] :=
  ⟨(C3_no_partial_output fs0 genFail specYml pythonLang none none).1
      ⟨GenErr.genError (), by decide⟩,
    (C3_no_partial_output fs0 gen0 specYml pythonLang none none).2 _ _ (by decide)⟩

/-- C4: for an invalid target language, `_generate` raises before any
specification text is read or handed to the compiler core. -/
theorem C4_invalid_language_reads_nothing {ε : Type} (fs : PyPath → Str)
    (gen : Str → Str → Str → Except ε (Str × Str)) (input : PyPath) (language : Str)
    (output_file implementation : Option PyPath)
    (h : language ∉ [pythonLang, typescriptLang]) :
    (generate fs gen input language output_file implementation).reads = [] ∧
      (generate fs gen input language output_file implementation).genCalls = [] ∧
      (generate fs gen input language output_file implementation).result =
        Except.error GenErr.notImplementedError := by
  unfold generate
  rw [if_pos h]
  exact ⟨rfl, rfl, rfl⟩

/-- C4 witness: the concrete invalid language "java". -/
theorem C4_invalid_language_reads_nothing_witness :
    (generate fs0 gen0 specYml ("java".toList) none none).reads = [] ∧
      (generate fs0 gen0 specYml ("java".toList) none none).genCalls = [] ∧
      (generate fs0 gen0 specYml ("java".toList) none none).result =
        Except.error GenErr.notImplementedError :=
  C4_invalid_language_reads_nothing fs0 gen0 specYml ("java".toList) none none (by decide)

/-! ## Helper lemmas on paths and joins -/

/-- On a nonempty path, `with_suffix` keeps the leading components and
rewrites the last one to its stem followed by the new suffix. -/
theorem with_suffix_parts (p : PyPath) (hne : p.parts ≠ []) (suf : Str) :
    (p.with_suffix suf).parts = p.parts.dropLast ++ [Str.stem p.name ++ suf] := by
  unfold PyPath.with_suffix PyPath.name
  cases hl : p.parts.getLast? with
  | none => exact absurd (List.getLast?_eq_none_iff.mp hl) hne
  | some nm => simp [hl]

/-- A nonempty path's name is one of its components. -/
theorem name_mem_parts (p : PyPath) (hne : p.parts ≠ []) : p.name ∈ p.parts := by
  unfold PyPath.name
  cases hl : p.parts.getLast? with
  | none => exact absurd (List.getLast?_eq_none_iff.mp hl) hne
  | some nm => simpa using List.mem_of_getLast?_eq_some hl

/-- Stemming removes characters, never adds them. -/
theorem mem_of_mem_stem {c : Char} {nm : Str} (h : c ∈ Str.stem nm) : c ∈ nm := by
  unfold Str.stem at h
  split at h
  · split at h
    · exact List.take_subset _ _ h
    · exact h
  · exact h

/-- Every character of a dot-join is a dot or a character of a joined
component. -/
theorem mem_joinDot {c : Char} : ∀ {l : List Str}, c ∈ joinDot l →
    c = '.' ∨ ∃ s ∈ l, c ∈ s := by
  intro l
  induction l with
  | nil => intro hc; cases hc
  | cons x xs ih =>
    intro hc
    cases xs with
    | nil => exact Or.inr ⟨x, List.mem_singleton_self x, hc⟩
    | cons y ys =>
      rcases List.mem_append.mp hc with h | h
      · exact Or.inr ⟨x, List.mem_cons_self x _, h⟩
      · rcases List.mem_cons.mp h with h | h
        · exact Or.inl h
        · rcases ih h with h | ⟨s, hs, hcs⟩
          · exact Or.inl h
          · exact Or.inr ⟨s, List.mem_cons_of_mem _ hs, hcs⟩

/-- An edge-registration statement is not a per-node statement. -/
theorem nodeId?_ofEdge (e : Edge) : (Stmt.ofEdge e).nodeId? = none := by
  obtain ⟨src, kind⟩ := e
  cases kind <;> rfl

/-- Per-node stub statements extract back to the node list. -/
theorem filterMap_nodeId_nodeDecls (a : LanguageAdapter) (l : List RawNode) :
    (l.map (fun n => Stmt.nodeDecl n.id (a.caseName n.id))).filterMap Stmt.nodeId? =
      l.map (·.id) := by
  induction l with
  | nil => rfl
  | cons n ns ih => simp [List.filterMap_cons, Stmt.nodeId?, ih]

/-- Edge statements contribute no per-node statement. -/
theorem filterMap_nodeId_edges (l : List Edge) :
    (l.map Stmt.ofEdge).filterMap Stmt.nodeId? = [] := by
  induction l with
  | nil => rfl
  | cons e es ih => simp [List.filterMap_cons, nodeId?_ofEdge, ih]

/-- Exit statements contribute no per-node statement. -/
theorem filterMap_nodeId_exits (l : List Str) :
    (l.map Stmt.exitStmt).filterMap Stmt.nodeId? = [] := by
  induction l with
  | nil => rfl
  | cons x xs ih => simp [List.filterMap_cons, Stmt.nodeId?, ih]

/-- Per-node implementation statements extract back to the node list. -/
theorem filterMap_implId_nodes (a : LanguageAdapter) (l : List RawNode) :
    (l.map (fun n => Stmt.implFn n.id (a.caseName n.id))).filterMap Stmt.implId? =
      l.map (·.id) := by
  induction l with
  | nil => rfl
  | cons n ns ih => simp [List.filterMap_cons, Stmt.implId?, ih]

/-! ## Claims about the compiler core -/

/-- C2: compilation is deterministic — two runs of `compile` on identical
specification text and target language return byte-identical stub and
implementation text. -/
theorem C2_deterministic (raw : RawSpec) (language stubModule : Str) (s₁ i₁ s₂ i₂ : Str)
    (h₁ : compile raw language stubModule = Except.ok (s₁, i₁))
    (h₂ : compile raw language stubModule = Except.ok (s₂, i₂)) :
    s₁ = s₂ ∧ i₁ = i₂ := by
  rw [h₁] at h₂
  cases h₂
  exact ⟨rfl, rfl⟩

/-- C2 witness: the valid fixture compiles, and the theorem applies to its
two (identical) runs. -/
theorem C2_deterministic_witness : stubPy = stubPy ∧ implPy = implPy :=
  C2_deterministic raw2 pythonLang ("agent".toList) stubPy implPy stubPy implPy
    (by decide) (by decide)

/-- C5: a structurally invalid document fails with one
`SpecificationError` enumerating every defect of every category —
duplicate node ids, dangling edge references, empty branch mappings,
wrong entry-node count (and unreachable nodes). -/
theorem C5_enumerates_defects (raw : RawSpec) (h : raw.collectDefects ≠ []) :
    ∃ ds, parseSpec raw = Except.error ds ∧
      (∀ x ∈ raw.dupIds, Defect.duplicateNode x ∈ ds) ∧
      (∀ x ∈ raw.danglingIds, Defect.danglingRef x ∈ ds) ∧
      (∀ e ∈ raw.edges, e.isEmptyConditional = true → Defect.emptyBranches e.src ∈ ds) ∧
      (raw.entries.length ≠ 1 → Defect.entryCount raw.entries.length ∈ ds) ∧
      (∀ x ∈ raw.ids, x ∉ raw.visited → Defect.unreachable x ∈ ds) := by
  refine ⟨raw.collectDefects, ?_, ?_, ?_, ?_, ?_, ?_⟩
  · unfold parseSpec
    split
    · next heq => exact absurd heq h
    · rfl
  · intro x hx
    unfold RawSpec.collectDefects
    exact List.mem_append_left _ (List.mem_append_left _ (List.mem_append_left _
      (List.mem_append_left _ (List.mem_map_of_mem _ hx))))
  · intro x hx
    unfold RawSpec.collectDefects
    exact List.mem_append_left _ (List.mem_append_left _ (List.mem_append_left _
      (List.mem_append_right _ (List.mem_map_of_mem _ hx))))
  · intro e he hcond
    unfold RawSpec.collectDefects
    refine List.mem_append_left _ (List.mem_append_left _ (List.mem_append_right _ ?_))
    exact List.mem_map_of_mem _ (List.mem_filter.mpr ⟨he, hcond⟩)
  · intro hn
    unfold RawSpec.collectDefects
    refine List.mem_append_left _ (List.mem_append_right _ ?_)
    rw [if_neg hn]
    exact List.mem_singleton_self _
  · intro x hx hv
    unfold RawSpec.collectDefects
    refine List.mem_append_right _ ?_
    exact List.mem_map_of_mem _ (List.mem_filter.mpr ⟨hx, decide_eq_true hv⟩)

/-- C5 witness: the fixture with one defect of each category. -/
theorem C5_enumerates_defects_witness :
    ∃ ds, parseSpec raw0 = Except.error ds ∧
      Defect.duplicateNode ("a".toList) ∈ ds ∧
      Defect.danglingRef ("x".toList) ∈ ds ∧
      Defect.emptyBranches ("a".toList) ∈ ds ∧
      Defect.entryCount 2 ∈ ds := by
  obtain ⟨ds, h1, h2, h3, h4, h5, _⟩ := C5_enumerates_defects raw0 (by decide)
  exact ⟨ds, h1, h2 _ (by decide), h3 _ (by decide),
    h4 ⟨"a".toList, .conditional [] none⟩ (by decide) (by decide), h5 (by decide)⟩

/-- C6: both artifacts emit their per-node statements in the node
declaration order of the specification. -/
theorem C6_node_order (s : Specification) (a : LanguageAdapter) (m : Str) :
    (renderStubStmts s a m).filterMap Stmt.nodeId? = s.nodes.map (·.id) ∧
      (renderImplStmts s a).filterMap Stmt.implId? = s.nodes.map (·.id) := by
  constructor
  · unfold renderStubStmts
    rw [List.filterMap_append, List.filterMap_append, List.filterMap_append,
      List.filterMap_append, filterMap_nodeId_nodeDecls, filterMap_nodeId_edges,
      filterMap_nodeId_exits]
    simp [List.filterMap_cons, Stmt.nodeId?]
  · unfold renderImplStmts
    exact filterMap_implId_nodes a s.nodes

/-- C7: every declared node missing from the breadth-first visited set is
reported as unreachable by validation. -/
theorem C7_unreachable_reported (raw : RawSpec) (x : Str)
    (hx : x ∈ raw.ids) (hv : x ∉ raw.visited) :
    Defect.unreachable x ∈ raw.collectDefects := by
  unfold RawSpec.collectDefects
  refine List.mem_append_right _ ?_
  exact List.mem_map_of_mem _ (List.mem_filter.mpr ⟨hx, decide_eq_true hv⟩)

/-- C7 witness: the design document's example — entry `a`, nodes `b`,
`c`, single edge `a → b`; `c` is absent from the visited set and is
reported. -/
theorem C7_unreachable_reported_witness :
    Defect.unreachable ("c".toList) ∈ raw1.collectDefects :=
  C7_unreachable_reported raw1 ("c".toList) (by decide) (by decide)

/-- C8 (claim as stated, refuted): on the single-component path
`agent.py.py`, `_rewrite_path_as_import` returns `agent.py`, which does
contain the path's original suffix `.py` — against the claim that the
result never contains it. -/
theorem C8_counterexample :
    rewrite_path_as_import ⟨["agent.py.py".toList]⟩ = "agent.py".toList ∧
      PyPath.suffix ⟨["agent.py.py".toList]⟩ = ".py".toList ∧
      Str.occursIn (".py".toList) (rewrite_path_as_import ⟨["agent.py.py".toList]⟩) := by
  refine ⟨by decide, by decide, ⟨"agent".toList, [], by decide⟩⟩

/-- C8 (amended): on a nonempty path whose components are free of the
separator, `_rewrite_path_as_import` returns the components with the last
one stemmed, joined by dots, and the result contains no path separator
(it can still contain the original suffix). -/
theorem C8_import_of_parts (p : PyPath) (hne : p.parts ≠ [])
    (hsep : ∀ c ∈ p.parts, ('/' : Char) ∉ c) :
    rewrite_path_as_import p = joinDot (p.parts.dropLast ++ [Str.stem p.name]) ∧
      ('/' : Char) ∉ rewrite_path_as_import p := by
  have hparts : (p.with_suffix []).parts = p.parts.dropLast ++ [Str.stem p.name] := by
    have h := with_suffix_parts p hne []
    simpa using h
  constructor
  · unfold rewrite_path_as_import
    rw [hparts]
  · unfold rewrite_path_as_import
    rw [hparts]
    intro hmem
    rcases mem_joinDot hmem with h | ⟨s, hs, hcs⟩
    · exact absurd h (by decide)
    · rcases List.mem_append.mp hs with h | h
      · exact hsep s (List.mem_of_mem_dropLast h) hcs
      · have hse : s = Str.stem p.name := by simpa using h
        subst hse
        exact hsep p.name (name_mem_parts p hne) (mem_of_mem_stem hcs)

/-- C8 witness: the amended claim at the single-component path
`agent.py`, where the import string is `agent`. -/
theorem C8_import_of_parts_witness :
    rewrite_path_as_import ⟨["agent.py".toList]⟩ =
        joinDot ((⟨["agent.py".toList]⟩ : PyPath).parts.dropLast ++
          [Str.stem (PyPath.name ⟨["agent.py".toList]⟩)]) ∧
      ('/' : Char) ∉ rewrite_path_as_import ⟨["agent.py".toList]⟩ :=
  C8_import_of_parts ⟨["agent.py".toList]⟩ (by decide) (by decide)

/-- C9: with no explicit output paths and a recognized language,
`_generate` returns the input path with its suffix replaced by the
per-language suffix as the stub path, and the input's directory with the
input's stem followed by `_impl` and the same suffix as the
implementation path. -/
theorem C9_default_output_paths {ε : Type} (fs : PyPath → Str)
    (gen : Str → Str → Str → Except ε (Str × Str)) (input : PyPath) (language : Str)
    (o p : PyPath) (hne : input.parts ≠ [])
    (h : (generate fs gen input language none none).result = Except.ok (o, p)) :
    ∃ sfx : Str,
      ((language = pythonLang ∧ sfx = ".py".toList) ∨
        (language = typescriptLang ∧ sfx = ".ts".toList)) ∧
      o.parts = input.parts.dropLast ++ [Str.stem input.name ++ sfx] ∧
      p.parts = input.parts.dropLast ++ [Str.stem input.name ++ "_impl".toList ++ sfx] := by
  revert h
  unfold generate generateValid generateCore
  split
  · intro h; cases h
  · next hlang =>
    split
    · intro h; cases h
    · split
      · intro h; cases h
      · intro h
        cases h
        refine ⟨if language = pythonLang then ".py".toList else ".ts".toList, ?_, ?_, ?_⟩
        · by_cases hpy : language = pythonLang
          · exact Or.inl ⟨hpy, by rw [if_pos hpy]⟩
          · have hts : language = typescriptLang := by
              have hmem : language ∈ [pythonLang, typescriptLang] := not_not.mp hlang
              rcases List.mem_cons.mp hmem with h' | h'
              · exact absurd h' hpy
              · simpa using h'
            exact Or.inr ⟨hts, by rw [if_neg hpy]⟩
        · exact with_suffix_parts input hne _
        · rfl

/-- C9 witness: input `spec.yml` with the python language derives
`spec.py` and `spec_impl.py`. -/
theorem C9_default_output_paths_witness :
    ∃ sfx : Str,
      ((pythonLang = pythonLang ∧ sfx = ".py".toList) ∨
        (pythonLang = typescriptLang ∧ sfx = ".ts".toList)) ∧
      (⟨["spec.py".toList]⟩ : PyPath).parts =
          specYml.parts.dropLast ++ [Str.stem specYml.name ++ sfx] ∧
      (⟨["spec_impl.py".toList]⟩ : PyPath).parts =
          specYml.parts.dropLast ++ [Str.stem specYml.name ++ "_impl".toList ++ sfx] :=
  C9_default_output_paths fs0 gen0 specYml pythonLang ⟨["spec.py".toList]⟩
    ⟨["spec_impl.py".toList]⟩ (by decide) (by decide)

/-- C10: when `_generate` succeeds, the compiler core was called exactly
once and returned a pair; its first element was written to the returned
stub path and its second to the returned implementation path, in that
order. -/
theorem C10_writes_match_result {ε : Type} (fs : PyPath → Str)
    (gen : Str → Str → Str → Except ε (Str × Str)) (input : PyPath) (language : Str)
    (output_file implementation : Option PyPath) (o p : PyPath)
    (h : (generate fs gen input language output_file implementation).result =
      Except.ok (o, p)) :
    ∃ a s i,
      (generate fs gen input language output_file implementation).genCalls =
          [(a, Except.ok (s, i))] ∧
        (generate fs gen input language output_file implementation).writes =
          [(o, s), (p, i)] := by
  revert h
  unfold generate generateValid generateCore
  split
  · intro h; cases h
  · split
    · intro h; cases h
    · split
      · intro h; cases h
      · intro h
        cases h
        exact ⟨_, _, _, rfl, rfl⟩

/-- C10 witness: the successful concrete run writes the stub to
`spec.py` and the implementation to `spec_impl.py`. -/
theorem C10_writes_match_result_witness :
    ∃ a s i,
      (generate fs0 gen0 specYml pythonLang none none).genCalls =
          [(a, Except.ok (s, i))] ∧
        (generate fs0 gen0 specYml pythonLang none none).writes =
          [((⟨["spec.py".toList]⟩ : PyPath), s), ((⟨["spec_impl.py".toList]⟩ : PyPath), i)] :=
  C10_writes_match_result fs0 gen0 specYml pythonLang none none ⟨["spec.py".toList]⟩
    ⟨["spec_impl.py".toList]⟩ (by decide)
